import Mathlib

/-!
Verification development for the jvector benchmark-analysis scripts.

The repository contains small Python pipelines:
  * `parse-haystack.py` — a line-oriented state machine turning benchmark logs into
    `{dataset name ↦ [ {N, data : [{K, B, F}]} ]}` records;
  * `plot_output.py` — a metric extractor (`parse_data`) producing measurement points
    `(pq, recall, throughput, M, ef, overquery)` and a Pareto-dominance filter
    (`is_pareto_optimal` / `filter_pareto_optimal`);
  * `fitK.py` / `fitNK.py` — sample selection plus model functions handed to an
    external nonlinear least-squares solver.

Python regular-expression matching is embedded by specialised matchers over `List Char`
that realise exactly the patterns appearing in the source (all of them are
backtracking-free except for the documented greedy `\S+s` / `(\S+):` cases, which are
resolved explicitly).  Python floats are embedded as `ℚ`; `re.match` is anchored
prefix matching and `re.search` is leftmost matching, realised by `searchFrom`.
-/

namespace JVector

/-- Python's `\s` character class (ASCII range). -/
def pyIsSpace (c : Char) : Bool :=
  c = ' ' || c = '\t' || c = '\n' || c = '\r' || c = '\x0b' || c = '\x0c'

/-- `needle` occurs at the start of `hay`. -/
def leadsWith : List Char → List Char → Bool
  | [], _ => true
  | _ :: _, [] => false
  | l :: ls, c :: cs => c = l && leadsWith ls cs

/-- Scan for `needle` anywhere in `hay` (Python's `needle in hay`). -/
def containsSubCL (needle : List Char) : List Char → Bool
  | [] => leadsWith needle []
  | c :: cs => leadsWith needle (c :: cs) || containsSubCL needle cs

/-- Python's substring test `needle in hay`. -/
def containsSub (needle hay : String) : Bool :=
  containsSubCL needle.toList hay.toList

/-- Strip a literal from the front of the input, or fail. -/
def stripLit : List Char → List Char → Option (List Char)
  | [], cs => some cs
  | _ :: _, [] => none
  | l :: ls, c :: cs => if c = l then stripLit ls cs else none

/-- Numeric value of a digit string (`int(...)` on a `\d+` capture). -/
def digitsVal (ds : List Char) : Nat :=
  ds.foldl (fun n c => 10 * n + (c.toNat - 48)) 0

/-- Greedy `\d+`: value, number of digits, and the rest of the input. -/
def takeDigits (cs : List Char) : Option (Nat × Nat × List Char) :=
  let p := cs.span Char.isDigit
  if p.1 = [] then none else some (digitsVal p.1, p.1.length, p.2)

/-- `re.search` semantics: try an anchored matcher at every start position,
leftmost success wins. -/
def searchFrom {α : Type} (f : List Char → Option α) : List Char → Option α
  | [] => f []
  | c :: cs =>
    match f (c :: cs) with
    | some a => some a
    | none => searchFrom f cs

/-! ### parse-haystack.py — line matchers

`dataset_regex = r'^(.*?):\s*\d+\s*base and \d+\s*query vectors loaded, dimensions \d+'`
`run_regex     = r'^Build N=(\d+) M=\d+ ef=\d+ in \S+s with \S+ short edges'`
`data_line_regex = r'^Looking for top (\d+) of (\d+) ordinals required visiting (\d+) nodes'`
All three are used with `re.match`, i.e. anchored at the start of the line but not at
its end. -/

/-- The part of `dataset_regex` after the lazily captured name and its `:`,
tested as a prefix of the rest of the line. -/
def datasetTail (cs0 : List Char) : Bool :=
  let cs := cs0.dropWhile pyIsSpace
  match takeDigits cs with
  | none => false
  | some (_, _, cs) =>
    let cs := cs.dropWhile pyIsSpace
    match stripLit "base and ".toList cs with
    | none => false
    | some cs =>
      match takeDigits cs with
      | none => false
      | some (_, _, cs) =>
        let cs := cs.dropWhile pyIsSpace
        match stripLit "query vectors loaded, dimensions ".toList cs with
        | none => false
        | some cs => (takeDigits cs).isSome

/-- Scan for the lazy group `^(.*?):` — shortest newline-free head whose following
`:` is succeeded by `datasetTail`; returns `group(1)`. -/
def datasetNameAux (acc : List Char) : List Char → Option String
  | [] => none
  | c :: cs =>
    if c = '\n' then none
    else if c = ':' && datasetTail cs then some (String.mk acc.reverse)
    else datasetNameAux (c :: acc) cs

/-- `re.match(dataset_regex, line)`, returning the captured dataset name. -/
def datasetHeaderName (line : List Char) : Option String :=
  datasetNameAux [] line

/-- `re.match(run_regex, line)`, returning the captured `N`.  The greedy `\S+s`
resolves to: the maximal non-space token must end in `s` (with at least one character
before it) and be followed by `" with "`. -/
def runHeaderN (line : List Char) : Option Nat := do
  let cs ← stripLit "Build N=".toList line
  let (n, _, cs) ← takeDigits cs
  let cs ← stripLit " M=".toList cs
  let (_, _, cs) ← takeDigits cs
  let cs ← stripLit " ef=".toList cs
  let (_, _, cs) ← takeDigits cs
  let cs ← stripLit " in ".toList cs
  let tok := cs.takeWhile (fun c => !pyIsSpace c)
  let rest := cs.dropWhile (fun c => !pyIsSpace c)
  if tok.length < 2 ∨ tok.getLast? ≠ some 's' then none
  else do
    let cs2 ← stripLit " with ".toList rest
    let tok2 := cs2.takeWhile (fun c => !pyIsSpace c)
    let rest2 := cs2.dropWhile (fun c => !pyIsSpace c)
    if tok2 = [] then none
    else do
      let _ ← stripLit " short edges".toList rest2
      some n

/-- `re.match(data_line_regex, line)`, returning the captured `(K, B, F)`. -/
def trialLineKBF (line : List Char) : Option (Nat × Nat × Nat) := do
  let cs ← stripLit "Looking for top ".toList line
  let (k, _, cs) ← takeDigits cs
  let cs ← stripLit " of ".toList cs
  let (b, _, cs) ← takeDigits cs
  let cs ← stripLit " ordinals required visiting ".toList cs
  let (f, _, cs) ← takeDigits cs
  let _ ← stripLit " nodes".toList cs
  some (k, b, f)

/-! ### parse-haystack.py — the `parse_file` state machine -/

/-- One `{'K': …, 'B': …, 'F': …}` record appended by a data line. -/
structure Trial where
  K : Nat
  B : Nat
  F : Nat
  deriving DecidableEq

/-- One `{'N': …, 'data': […]}` record opened by a run line. -/
structure Run where
  N : Nat
  data : List Trial
  deriving DecidableEq

/-- State of the `parse_file` loop.  The Python code mutates `current_run` in place
while the same object may also sit inside `parsed_data[...]`; the embedding keeps the
current run outside the map, together with the name of the dataset whose list it was
appended to (`none` once that entry has been overwritten by a later header for the
same name, after which the object is unreachable from the output although Python keeps
mutating it), and flushes it into its owner's list as soon as it can no longer change:
when the next run starts, or when the input ends. -/
structure PState where
  datasets : List (String × List Run)
  currentDataset : Option String
  cur : Option (Option String × Run)
  deriving DecidableEq

/-- `parsed_data[k] = v` on an insertion-ordered dictionary. -/
def setEntry (m : List (String × List Run)) (k : String) (v : List Run) :
    List (String × List Run) :=
  match m with
  | [] => [(k, v)]
  | p :: rest => if p.1 = k then (k, v) :: rest else p :: setEntry rest k v

/-- `parsed_data[k].append(r)` (no-op when the key is absent, which never happens
for a valid owner). -/
def appendEntry (m : List (String × List Run)) (k : String) (r : Run) :
    List (String × List Run) :=
  match m with
  | [] => []
  | p :: rest => if p.1 = k then (p.1, p.2 ++ [r]) :: rest else p :: appendEntry rest k r

/-- Dictionary lookup. -/
def lookupDs (m : List (String × List Run)) (k : String) : Option (List Run) :=
  match m with
  | [] => none
  | p :: rest => if p.1 = k then some p.2 else lookupDs rest k

/-- A dataset header overwrites `parsed_data[name]`; if the pending current run had
been appended to that entry's old list it becomes unreachable from the output. -/
def detachIf (name : String) (cur : Option (Option String × Run)) :
    Option (Option String × Run) :=
  match cur with
  | some (some o, r) => if o = name then some (none, r) else some (some o, r)
  | c => c

/-- Materialise the pending current run into its owner's list.  In Python the
`parsed_data[current_dataset].append(current_run)` already happened when the run
line was read; the embedding defers it until the run can no longer be mutated. -/
def flushCur (s : PState) : List (String × List Run) :=
  match s.cur with
  | some (some o, r) => appendEntry s.datasets o r
  | _ => s.datasets

/-- One iteration of the `for line in file_lines` loop of `parse_file`:
dataset header first, then run header (only with a current dataset),
then data line (only with a current run), otherwise ignore the line. -/
def parseStep (s : PState) (line : String) : PState :=
  match datasetHeaderName line.toList with
  | some name =>
    { datasets := setEntry s.datasets name [],
      currentDataset := some name,
      cur := detachIf name s.cur }
  | none =>
    match runHeaderN line.toList, s.currentDataset with
    | some n, some d =>
      { datasets := flushCur s,
        currentDataset := some d,
        cur := some (some d, { N := n, data := [] }) }
    | _, _ =>
      match trialLineKBF line.toList, s.cur with
      | some (k, b, f), some (o, r) =>
        { s with cur := some (o, { r with data := r.data ++ [⟨k, b, f⟩] }) }
      | _, _ => s

/-- `parse_file(file_lines)` from parse-haystack.py. -/
def parse_file (lines : List String) : List (String × List Run) :=
  flushCur (lines.foldl parseStep ⟨[], none, none⟩)

/-! ### plot_output.py — searches

`re.search(r'(\d+) base', description)`, `re.search(r'(\d+) query', description)`,
`re.search(r'dimensions (\d+)', description)`, `re.search(r'(\S+):', description)`,
`re.search(r'\((\d+)\)', line)`, `re.search(r'M=(\d+)', line)`,
`re.search(r'ef=(\d+)', line)`, `re.search(r'recall (\d+\.\d+)', line)`,
`re.search(r'in (\d+\.\d+)s', line)`, `re.search(r'top 100/(\d+) ', line)`. -/

/-- `re.search(r'<lit>(\d+)', s)`: a literal followed by a digit capture. -/
def searchLitNat (lit : List Char) : List Char → Option Nat :=
  searchFrom (fun cs => do
    let cs ← stripLit lit cs
    let (n, _, _) ← takeDigits cs
    some n)

/-- `re.search(r'(\d+)<lit>', s)`: a digit capture followed by a literal whose first
character is not a digit (so the greedy `\d+` never backtracks). -/
def searchNatLit (lit : List Char) : List Char → Option Nat :=
  searchFrom (fun cs => do
    let (n, _, cs) ← takeDigits cs
    let _ ← stripLit lit cs
    some n)

/-- Largest index holding `:` in a token, if any. -/
def lastIdxColon : List Char → Option Nat
  | [] => none
  | c :: rest =>
    match lastIdxColon rest with
    | some p => some (p + 1)
    | none => if c = ':' then some 0 else none

/-- `re.search(r'(\S+):', s)`: the greedy `\S+` backtracks to the last `:` inside the
maximal non-space token at the leftmost viable position. -/
def searchSNameColon : List Char → Option String :=
  searchFrom (fun cs =>
    let tok := cs.takeWhile (fun c => !pyIsSpace c)
    match lastIdxColon tok with
    | some p => if 1 ≤ p then some (String.mk (tok.take p)) else none
    | none => none)

/-- `float(...)` of a `\d+\.\d+` capture, embedded as an exact rational. -/
def takeFloat (cs : List Char) : Option (ℚ × List Char) := do
  let (ip, _, cs) ← takeDigits cs
  match cs with
  | '.' :: cs2 => do
    let (fp, flen, rest) ← takeDigits cs2
    some ((ip : ℚ) + (fp : ℚ) / (10 : ℚ) ^ flen, rest)
  | _ => none

/-- `re.search(r'recall (\d+\.\d+)', line)`. -/
def searchRecall : List Char → Option ℚ :=
  searchFrom (fun cs => do
    let cs ← stripLit "recall ".toList cs
    let (q, _) ← takeFloat cs
    some q)

/-- `re.search(r'in (\d+\.\d+)s', line)`. -/
def searchTimeS : List Char → Option ℚ :=
  searchFrom (fun cs => do
    let cs ← stripLit "in ".toList cs
    let (q, rest) ← takeFloat cs
    match rest with
    | 's' :: _ => some q
    | _ => none)

/-- `re.search(r'top 100/(\d+) ', line)`. -/
def searchOverquery : List Char → Option Nat :=
  searchFrom (fun cs => do
    let cs ← stripLit "top 100/".toList cs
    let (n, _, rest) ← takeDigits cs
    match rest with
    | ' ' :: _ => some n
    | _ => none)

/-- `re.search(r'\((\d+)\)', line)`. -/
def searchParenNat : List Char → Option Nat :=
  searchFrom (fun cs => do
    let cs ← stripLit "(".toList cs
    let (n, _, rest) ← takeDigits cs
    match rest with
    | ')' :: _ => some n
    | _ => none)

/-! ### plot_output.py — `parse_data` and the Pareto filter -/

/-- The `Point` dataclass of plot_output.py. -/
structure Point where
  pq : String
  «recall» : ℚ
  throughput : ℚ
  M : Nat
  ef : Nat
  overquery : Nat
  deriving DecidableEq

/-- The three `re.search` extractions performed on a query-result line. -/
def queryFields (cs : List Char) : Option (ℚ × ℚ × Nat) := do
  let r ← searchRecall cs
  let t ← searchTimeS cs
  let oq ← searchOverquery cs
  some (r, t, oq)

/-- One iteration of the `for line in data` loop of `parse_data`: given the running
context `(current_pq, (M, ef))`, returns the updated context and the points emitted by
this line, or `none` wherever Python raises (a failed `.group(1)` on a missing match,
`ZeroDivisionError` on a zero elapsed time, or the `assert`s on missing context). -/
def parseDataLine (qvc : Nat) (pq : Option String) (mef : Option (Nat × Nat))
    (line : String) : Option (Option String × Option (Nat × Nat) × List Point) :=
  if containsSub "ProductQuantization" line then
    match searchParenNat line.toList with
    | some k => some (some ("PQ@" ++ Nat.repr k), mef, [])
    | none => none
  else if containsSub "BinaryQuantization" line then
    some (some "BQ", mef, [])
  else if containsSub "Uncompressed" line then
    some (some "UC", mef, [])
  else if containsSub "Build M=" line then
    match searchLitNat "M=".toList line.toList, searchLitNat "ef=".toList line.toList with
    | some m, some e => some (pq, some (m, e), [])
    | _, _ => none
  else if containsSub "  Query " line then
    if containsSub "(memory)" line then
      some (pq, mef, [])
    else
      match queryFields line.toList with
      | some (r, t, oq) =>
        if t = 0 then none
        else
          match pq, mef with
          | some pqv, some me =>
            some (pq, mef, [⟨pqv, r, (qvc : ℚ) * 10 / t, me.1, me.2, oq⟩])
          | _, _ => none
      | none => none
  else
    some (pq, mef, [])

/-- The `for line in data` loop of `parse_data`, accumulating `parsed_data`. -/
def parseDataLoop (qvc : Nat) (pq : Option String) (mef : Option (Nat × Nat))
    (acc : List Point) : List String → Option (List Point)
  | [] => some acc
  | line :: rest =>
    match parseDataLine qvc pq mef line with
    | some (pq2, mef2, pts) => parseDataLoop qvc pq2 mef2 (acc ++ pts) rest
    | none => none

/-- The dictionary returned by `parse_data` (the query-vector count is read from the
description but not returned, exactly as in the source). -/
structure DatasetSummary where
  name : String
  base_vector_count : Nat
  dimensions : Nat
  data : List Point
  deriving DecidableEq

/-- `parse_data(description, data)` from plot_output.py. -/
def parse_data (description : String) (data : List String) : Option DatasetSummary :=
  match searchNatLit " base".toList description.toList,
      searchNatLit " query".toList description.toList,
      searchLitNat "dimensions ".toList description.toList,
      searchSNameColon description.toList with
  | some bvc, some qvc, some dims, some name =>
    (parseDataLoop qvc none none [] data).map (fun pts => ⟨name, bvc, dims, pts⟩)
  | _, _, _, _ => none

/-- `is_pareto_optimal(candidate, others)` from plot_output.py. -/
def is_pareto_optimal (candidate : Point) : List Point → Bool
  | [] => true
  | point :: others =>
    if point.recall ≥ candidate.recall ∧ point.throughput > candidate.throughput then false
    else if point.recall > candidate.recall ∧ point.throughput ≥ candidate.throughput then false
    else is_pareto_optimal candidate others

/-- `filter_pareto_optimal(data)` from plot_output.py. -/
def filter_pareto_optimal (data : List Point) : List Point :=
  data.filter (fun point => is_pareto_optimal point data)

/-- The dominance rule of the spec: A dominates B iff
(A.recall ≥ B.recall and A.throughput > B.throughput) or
(A.recall > B.recall and A.throughput ≥ B.throughput) — exactly the two conditions
tested inside `is_pareto_optimal`. -/
def dominates (a b : Point) : Prop :=
  (a.recall ≥ b.recall ∧ a.throughput > b.throughput) ∨
  (a.recall > b.recall ∧ a.throughput ≥ b.throughput)

instance (a b : Point) : Decidable (dominates a b) := by
  unfold dominates; exact inferInstance

/-! ### fitK.py and fitNK.py — sample selection and model functions -/

/-- The Python errors distinguished by the fit pipelines: the `ValueError` raised by
unpacking `zip(*[])`, the spec's `InsufficientDataError` (§7, never raised by the
code), and the external solver's non-convergence error. -/
inductive PyError where
  | valueError
  | insufficientData
  | convergenceError
  deriving DecidableEq

namespace FitK

/-- fitK.py sample selection: `if run['B'] == graph['N'] and run['K'] == 19`,
appending `(graph['N'], run['F'])` in order of appearance. -/
def filtered_data (dataset : List Run) : List (Nat × Nat) :=
  dataset.foldl (fun acc graph =>
    graph.data.foldl (fun acc2 r =>
      if r.B = graph.N ∧ r.K = 19 then acc2 ++ [(graph.N, r.F)] else acc2) acc) []

/-- fitK.py: `N_values, F_values = zip(*filtered_data)` followed by the solver call;
unpacking `zip(*[])` raises a `ValueError` when the selection is empty, before
`curve_fit` is ever reached. -/
def prepare_samples (dataset : List Run) : Except PyError (List Nat × List Nat) :=
  let fd := filtered_data dataset
  if fd = [] then Except.error PyError.valueError
  else Except.ok (fd.map (fun t => t.1), fd.map (fun t => t.2))

end FitK

namespace FitNK

/-- fitNK.py sample selection: `if run['B'] == graph['N']`, appending
`(graph['N'], run['K'], run['F'])` in order of appearance. -/
def filtered_data (dataset : List Run) : List (Nat × Nat × Nat) :=
  dataset.foldl (fun acc graph =>
    graph.data.foldl (fun acc2 r =>
      if r.B = graph.N then acc2 ++ [(graph.N, r.K, r.F)] else acc2) acc) []

/-- fitNK.py model: `fit_function(variables, A, B, X, Y) = A + B * np.log(N)**X * K**Y`
(natural logarithm, real exponents). -/
noncomputable def fit_function (N K A B X Y : ℝ) : ℝ :=
  A + B * Real.log N ^ X * K ^ Y

/-- Modelled from the spec: `cost_vs_N_and_K` "filters trials where B == N (no K
restriction)" — the (N, K, F) triples of trials whose B equals the owning build's N,
in order of appearance. -/
def specSelection (dataset : List Run) : List (Nat × Nat × Nat) :=
  dataset.flatMap (fun graph =>
    (graph.data.filter (fun r => r.B == graph.N)).map (fun r => (graph.N, r.K, r.F)))

/-- Modelled from the spec: the `cost_vs_N_and_K` model `F = A + B·ln(N)^X·K^Y`. -/
noncomputable def specModel (N K A B X Y : ℝ) : ℝ :=
  A + B * Real.log N ^ X * K ^ Y

/-- fitNK.py: `N_values, K_values, F_values = zip(*filtered_data)` followed by the
solver call; unpacking `zip(*[])` raises a `ValueError` when the selection is empty,
before `curve_fit` is ever reached. -/
def prepare_samples (dataset : List Run) :
    Except PyError (List Nat × List Nat × List Nat) :=
  let fd := filtered_data dataset
  if fd = [] then Except.error PyError.valueError
  else Except.ok (fd.map (fun t => t.1), fd.map (fun t => t.2.1), fd.map (fun t => t.2.2))

end FitNK

/-! ### Helper lemmas -/

/-- The scan of `is_pareto_optimal` succeeds exactly when no point of the scanned
list dominates the candidate. -/
theorem is_pareto_optimal_iff (c : Point) (os : List Point) :
    is_pareto_optimal c os = true ↔ ∀ q ∈ os, ¬ dominates q c := by
  induction os with
  | nil => simp [is_pareto_optimal]
  | cons q os ih =>
    simp only [is_pareto_optimal]
    by_cases h1 : q.recall ≥ c.recall ∧ q.throughput > c.throughput
    · rw [if_pos h1]
      simp only [Bool.false_eq_true, false_iff]
      intro h
      exact h q (List.mem_cons_self q os) (Or.inl h1)
    · rw [if_neg h1]
      by_cases h2 : q.recall > c.recall ∧ q.throughput ≥ c.throughput
      · rw [if_pos h2]
        simp only [Bool.false_eq_true, false_iff]
        intro h
        exact h q (List.mem_cons_self q os) (Or.inr h2)
      · rw [if_neg h2, ih]
        constructor
        · intro h p hp
          rcases List.mem_cons.mp hp with rfl | hp
          · rintro (hd | hd)
            · exact h1 hd
            · exact h2 hd
          · exact h p hp
        · intro h p hp
          exact h p (List.mem_cons_of_mem q hp)

/-- Inner loop of the fitNK selection as a filter-map. -/
theorem fitNK_inner (n : Nat) (l : List Trial) (acc : List (Nat × Nat × Nat)) :
    l.foldl (fun acc2 r => if r.B = n then acc2 ++ [(n, r.K, r.F)] else acc2) acc =
      acc ++ (l.filter (fun r => r.B == n)).map (fun r => (n, r.K, r.F)) := by
  induction l generalizing acc with
  | nil => simp
  | cons r l ih =>
    by_cases h : r.B = n
    · simp [List.foldl_cons, h, ih, List.filter_cons]
    · simp [List.foldl_cons, h, ih, List.filter_cons]

/-- Outer loop of the fitNK selection as a flat-map. -/
theorem fitNK_outer (ds : List Run) (acc : List (Nat × Nat × Nat)) :
    ds.foldl (fun acc1 graph => graph.data.foldl
        (fun acc2 r => if r.B = graph.N then acc2 ++ [(graph.N, r.K, r.F)] else acc2) acc1)
        acc
      = acc ++ FitNK.specSelection ds := by
  induction ds generalizing acc with
  | nil => simp [FitNK.specSelection]
  | cons g ds ih =>
    rw [List.foldl_cons, fitNK_inner, ih]
    simp [FitNK.specSelection, List.append_assoc]

/-- A query line tagged "(memory)" (and matching no earlier branch) leaves the
extraction state unchanged and emits nothing. -/
theorem parseDataLine_memory {qvc : Nat} {pq : Option String} {mef : Option (Nat × Nat)}
    {line : String}
    (h1 : containsSub "ProductQuantization" line = false)
    (h2 : containsSub "BinaryQuantization" line = false)
    (h3 : containsSub "Uncompressed" line = false)
    (h4 : containsSub "Build M=" line = false)
    (hq : containsSub "  Query " line = true)
    (hm : containsSub "(memory)" line = true) :
    parseDataLine qvc pq mef line = some (pq, mef, []) := by
  simp [parseDataLine, h1, h2, h3, h4, hq, hm]

/-- Deleting a memory-tagged query line anywhere in the block leaves the loop's
result unchanged. -/
theorem parseDataLoop_skip {qvc : Nat} {line : String} {post : List String}
    (h1 : containsSub "ProductQuantization" line = false)
    (h2 : containsSub "BinaryQuantization" line = false)
    (h3 : containsSub "Uncompressed" line = false)
    (h4 : containsSub "Build M=" line = false)
    (hq : containsSub "  Query " line = true)
    (hm : containsSub "(memory)" line = true) :
    ∀ (pre : List String) (pq : Option String) (mef : Option (Nat × Nat))
      (acc : List Point),
      parseDataLoop qvc pq mef acc (pre ++ line :: post) =
        parseDataLoop qvc pq mef acc (pre ++ post) := by
  intro pre
  induction pre with
  | nil =>
    intro pq mef acc
    simp only [List.nil_append, parseDataLoop,
      parseDataLine_memory h1 h2 h3 h4 hq hm, List.append_nil]
  | cons p pre ih =>
    intro pq mef acc
    simp only [List.cons_append, parseDataLoop]
    cases hl : parseDataLine qvc pq mef p with
    | none => rfl
    | some v =>
      obtain ⟨pq2, mef2, pts⟩ := v
      exact ih pq2 mef2 (acc ++ pts)

/-- Every point emitted by a single line carries the throughput derived from that
line's parsed query time. -/
theorem parseDataLine_emits {qvc : Nat} {pq : Option String} {mef : Option (Nat × Nat)}
    {line : String} {pq2 : Option String} {mef2 : Option (Nat × Nat)} {pts : List Point}
    (h : parseDataLine qvc pq mef line = some (pq2, mef2, pts)) :
    ∀ p ∈ pts, ∃ r t oq, queryFields line.toList = some (r, t, oq) ∧
      p.throughput = (qvc : ℚ) * 10 / t := by
  intro p hp
  by_cases c1 : containsSub "ProductQuantization" line = true
  · simp only [parseDataLine, c1, if_true, if_false, ite_true, ite_false, Bool.false_eq_true] at h
    cases hs : searchParenNat line.toList <;> rw [hs] at h
    · cases h
    · simp only [Option.some.injEq, Prod.mk.injEq] at h
      rcases h with ⟨-, -, h3⟩
      subst h3
      cases hp
  · by_cases c2 : containsSub "BinaryQuantization" line = true
    · simp only [parseDataLine, c1, c2, Option.some.injEq, Prod.mk.injEq, if_true, if_false, ite_true, ite_false, Bool.false_eq_true] at h
      rcases h with ⟨-, -, h3⟩
      subst h3
      cases hp
    · by_cases c3 : containsSub "Uncompressed" line = true
      · simp only [parseDataLine, c1, c2, c3, Option.some.injEq, Prod.mk.injEq, if_true, if_false, ite_true, ite_false, Bool.false_eq_true] at h
        rcases h with ⟨-, -, h3⟩
        subst h3
        cases hp
      · by_cases c4 : containsSub "Build M=" line = true
        · simp only [parseDataLine, c1, c2, c3, c4, if_true, if_false, ite_true, ite_false, Bool.false_eq_true] at h
          cases hm : searchLitNat "M=".toList line.toList <;> rw [hm] at h
          · cases h
          · cases he : searchLitNat "ef=".toList line.toList <;> rw [he] at h
            · cases h
            · simp only [Option.some.injEq, Prod.mk.injEq] at h
              rcases h with ⟨-, -, h3⟩
              subst h3
              cases hp
        · by_cases c5 : containsSub "  Query " line = true
          · by_cases c6 : containsSub "(memory)" line = true
            · simp only [parseDataLine, c1, c2, c3, c4, c5, c6, Option.some.injEq, Prod.mk.injEq, if_true, if_false, ite_true, ite_false, Bool.false_eq_true] at h
              rcases h with ⟨-, -, h3⟩
              subst h3
              cases hp
            · simp only [parseDataLine, c1, c2, c3, c4, c5, c6, if_true, if_false, ite_true, ite_false, Bool.false_eq_true] at h
              cases hqf : queryFields line.toList <;> rw [hqf] at h
              · cases h
              · rename_i val
                obtain ⟨r, t, oq⟩ := val
                by_cases ht : t = 0
                · simp only [ht, if_true] at h
                  cases h
                · simp only [ht, if_false] at h
                  cases pq with
                  | none => cases h
                  | some pqv =>
                    cases mef with
                    | none => cases h
                    | some me =>
                      simp only [Option.some.injEq, Prod.mk.injEq] at h
                      rcases h with ⟨-, -, h3⟩
                      subst h3
                      rcases List.mem_singleton.mp hp with rfl
                      exact ⟨r, t, oq, rfl, rfl⟩
          · simp only [parseDataLine, c1, c2, c3, c4, c5, Option.some.injEq, Prod.mk.injEq, if_true, if_false, ite_true, ite_false, Bool.false_eq_true] at h
            rcases h with ⟨-, -, h3⟩
            subst h3
            cases hp

/-- Every point in the loop's output is already in the accumulator or originates in
some query line of the block, with the derived throughput. -/
theorem parseDataLoop_emits {qvc : Nat} :
    ∀ {rest : List String} {pq : Option String} {mef : Option (Nat × Nat)}
      {acc out : List Point},
      parseDataLoop qvc pq mef acc rest = some out →
      ∀ p ∈ out, p ∈ acc ∨ ∃ line ∈ rest, ∃ r t oq,
        queryFields line.toList = some (r, t, oq) ∧
        p.throughput = (qvc : ℚ) * 10 / t := by
  intro rest
  induction rest with
  | nil =>
    intro pq mef acc out h p hp
    simp only [parseDataLoop, Option.some.injEq] at h
    subst h
    exact Or.inl hp
  | cons line rest ih =>
    intro pq mef acc out h p hp
    simp only [parseDataLoop] at h
    cases hl : parseDataLine qvc pq mef line with
    | none => rw [hl] at h; cases h
    | some v =>
      obtain ⟨pq2, mef2, pts⟩ := v
      rw [hl] at h
      rcases ih h p hp with hmem | ⟨l, hl2, hr⟩
      · rcases List.mem_append.mp hmem with ha | hp2
        · exact Or.inl ha
        · exact Or.inr ⟨line, List.mem_cons_self line rest,
            parseDataLine_emits hl p hp2⟩
      · exact Or.inr ⟨l, List.mem_cons_of_mem line hl2, hr⟩

/-! ### Claim theorems -/

/-- C1: `filter_pareto_optimal` returns exactly those input points that are not
dominated by any other input point: every returned point is an input point no input
point dominates, and every input point excluded from the result is dominated by at
least one point of the input. -/
theorem filter_pareto_optimal_correct (data : List Point) :
    (∀ p ∈ filter_pareto_optimal data, p ∈ data ∧ ∀ q ∈ data, ¬ dominates q p) ∧
    (∀ p ∈ data, p ∉ filter_pareto_optimal data → ∃ q ∈ data, dominates q p) := by
  constructor
  · intro p hp
    have h := List.mem_filter.mp hp
    exact ⟨h.1, (is_pareto_optimal_iff p data).mp h.2⟩
  · intro p hp hnp
    by_cases hio : is_pareto_optimal p data = true
    · exact absurd (List.mem_filter.mpr ⟨hp, hio⟩) hnp
    · have h2 : ¬ ∀ q ∈ data, ¬ dominates q p :=
        fun h => hio ((is_pareto_optimal_iff p data).mpr h)
      push_neg at h2
      exact h2

/-- The spec's ParetoFilter scenario points (recall, throughput):
(0.9, 100), (0.95, 90), (0.9, 80). -/
def paretoPt1 : Point := ⟨"UC", 9/10, 100, 16, 100, 1⟩

def paretoPt2 : Point := ⟨"UC", 95/100, 90, 16, 100, 1⟩

def paretoPt3 : Point := ⟨"UC", 9/10, 80, 16, 100, 1⟩

/-- Witness for C1: on the spec's scenario the excluded third point is dominated. -/
theorem filter_pareto_optimal_correct_witness :
    ∃ q ∈ [paretoPt1, paretoPt2, paretoPt3], dominates q paretoPt3 :=
  (filter_pareto_optimal_correct [paretoPt1, paretoPt2, paretoPt3]).2 paretoPt3
    (by with_unfolding_all decide) (by with_unfolding_all decide)

/-- C9: the dominance relation tested inside `is_pareto_optimal` is antisymmetric —
for all points A and B (identical-coordinate pairs included) A and B never dominate
each other simultaneously. -/
theorem dominance_antisymmetry :
    (∀ (c : Point) (os : List Point),
      (is_pareto_optimal c os = true ↔ ∀ q ∈ os, ¬ dominates q c)) ∧
    ∀ a b : Point, ¬ (dominates a b ∧ dominates b a) := by
  refine ⟨is_pareto_optimal_iff, ?_⟩
  rintro a b ⟨h1, h2⟩
  rcases h1 with ⟨h1a, h1b⟩ | ⟨h1a, h1b⟩ <;> rcases h2 with ⟨h2a, h2b⟩ | ⟨h2a, h2b⟩ <;>
    linarith

/-- Witness for C9 at two concrete points (and at a tie with itself). -/
theorem dominance_antisymmetry_witness :
    ¬ (dominates paretoPt1 paretoPt2 ∧ dominates paretoPt2 paretoPt1) :=
  dominance_antisymmetry.2 paretoPt1 paretoPt2

/-- C3: the spec's four-line scenario parses to dataset "mydata" with one Build
(N = 100) holding the two trials (K=5, B=100, F=30) and (K=10, B=100, F=45). -/
theorem parse_file_scenario :
    parse_file ["mydata: 100 base and 50 query vectors loaded, dimensions 8",
      "Build N=100 M=16 ef=64 in 1.0s with 20.0 short edges",
      "Looking for top 5 of 100 ordinals required visiting 30 nodes",
      "Looking for top 10 of 100 ordinals required visiting 45 nodes"] =
      [("mydata", [⟨100, [⟨5, 100, 30⟩, ⟨10, 100, 45⟩]⟩])] := by decide

/-- C7: the cost_vs_N_and_K pipeline selects exactly the (N, K, F) triples, in order
of appearance, of trials whose B equals the owning build's N (no K restriction), and
its model function is A + B·ln(N)^X·K^Y. -/
theorem costNK_selection_and_model :
    (∀ dataset : List Run, FitNK.filtered_data dataset = FitNK.specSelection dataset) ∧
    ∀ N K A B X Y : ℝ, FitNK.fit_function N K A B X Y = FitNK.specModel N K A B X Y := by
  constructor
  · intro ds
    simpa [FitNK.filtered_data] using fitNK_outer ds []
  · intro N K A B X Y
    rfl

/-- A dataset whose only trial has B ≠ N: both selection predicates match nothing. -/
def fitEmptyDataset : List Run := [⟨100, [⟨5, 50, 30⟩]⟩]

/-- C8 counterexample: with zero matching trials the fitNK pipeline fails by the
`ValueError` of unpacking `zip(*[])` — an unrelated unpacking error, not a distinct
"insufficient data" condition. -/
theorem insufficient_data_counterexample :
    FitNK.filtered_data fitEmptyDataset = [] ∧
    FitNK.prepare_samples fitEmptyDataset = Except.error PyError.valueError ∧
    PyError.valueError ≠ PyError.insufficientData :=
  ⟨by decide, rfl, by decide⟩

/-- C8 amended: whenever the selection predicate yields zero matching trials, both
fit pipelines fail before the external solver is invoked, but with the generic
`ValueError` raised by unpacking the empty `zip`, not with a distinct "insufficient
data" condition. -/
theorem empty_selection_fails_before_solver :
    (∀ ds : List Run, FitNK.filtered_data ds = [] →
      FitNK.prepare_samples ds = Except.error PyError.valueError) ∧
    (∀ ds : List Run, FitK.filtered_data ds = [] →
      FitK.prepare_samples ds = Except.error PyError.valueError) := by
  constructor <;> intro ds h <;>
    simp [FitNK.prepare_samples, FitK.prepare_samples, h]

/-- Witness for the amended C8 on the empty dataset list. -/
theorem empty_selection_fails_before_solver_witness :
    FitNK.prepare_samples [] = Except.error PyError.valueError :=
  empty_selection_fails_before_solver.1 [] rfl

/-- C5: a query-result line tagged "(memory)" (reaching the query branch, i.e. free of
the quantization and build keywords) never contributes a measurement point: deleting
it from the dataset block leaves the whole extraction unchanged, whatever context
lines precede or follow it. -/
theorem memory_query_lines_never_contribute (line : String)
    (hq : containsSub "  Query " line = true)
    (hm : containsSub "(memory)" line = true)
    (h1 : containsSub "ProductQuantization" line = false)
    (h2 : containsSub "BinaryQuantization" line = false)
    (h3 : containsSub "Uncompressed" line = false)
    (h4 : containsSub "Build M=" line = false) :
    ∀ (description : String) (pre post : List String),
      parse_data description (pre ++ line :: post) =
        parse_data description (pre ++ post) := by
  intro description pre post
  unfold parse_data
  cases searchNatLit " base".toList description.toList <;>
    cases searchNatLit " query".toList description.toList <;>
      cases searchLitNat "dimensions ".toList description.toList <;>
        cases searchSNameColon description.toList <;>
          first
          | rfl
          | simp [parseDataLoop_skip h1 h2 h3 h4 hq hm]

/-- A dataset block used by several witnesses. -/
def memDesc : String := "memds: 10 base and 20 query vectors loaded, dimensions 4"

/-- A memory-tagged query line. -/
def memLine : String := "  Query (memory) top 100/2 recall 0.90 in 2.0s"

/-- Witness for C5: inserting the memory-tagged line into an empty block changes
nothing. -/
theorem memory_query_lines_never_contribute_witness :
    parse_data memDesc [memLine] = parse_data memDesc [] :=
  memory_query_lines_never_contribute memLine (by decide) (by decide) (by decide)
    (by decide) (by decide) (by decide) memDesc [] []

/-- Description and block realising the spec's throughput example:
1000 query vectors, query time 2.0 s. -/
def thrDesc : String := "mydata: 100 base and 1000 query vectors loaded, dimensions 8"

/-- A block with one uncompressed run and one non-memory query line. -/
def thrData : List String :=
  ["Uncompressed", "Build M=16 ef=100 in 10.0s",
   "  Query top 100/2 recall 0.90 in 2.0s"]

/-- The single point extracted from `thrData`. -/
def thrPoint : Point := ⟨"UC", (9 : ℚ)/10, 5000, 16, 100, 2⟩

set_option maxRecDepth 4000 in
/-- Evaluation step: the description's four searches. -/
theorem thr_desc_fields :
    searchNatLit " base".toList thrDesc.toList = some 100 ∧
    searchNatLit " query".toList thrDesc.toList = some 1000 ∧
    searchLitNat "dimensions ".toList thrDesc.toList = some 8 ∧
    searchSNameColon thrDesc.toList = some "mydata" := by
  refine ⟨by decide, by decide, by decide, by decide⟩

set_option maxRecDepth 4000 in
/-- Evaluation step: the quantization line. -/
theorem thr_line1 :
    parseDataLine 1000 none none "Uncompressed" = some (some "UC", none, []) := by
  decide

set_option maxRecDepth 4000 in
/-- Evaluation step: the build line. -/
theorem thr_line2 :
    parseDataLine 1000 (some "UC") none "Build M=16 ef=100 in 10.0s" =
      some (some "UC", some (16, 100), []) := by
  decide

set_option maxRecDepth 8000 in
/-- Evaluation step: the query line's three searches. -/
theorem thr_qf :
    queryFields "  Query top 100/2 recall 0.90 in 2.0s".toList =
      some ((9 : ℚ)/10, 2, 2) := by
  with_unfolding_all decide

/-- Evaluation step: the query line emits the point with throughput 1000·10/2.0. -/
theorem thr_line3 :
    parseDataLine 1000 (some "UC") (some (16, 100))
        "  Query top 100/2 recall 0.90 in 2.0s" =
      some (some "UC", some (16, 100), [thrPoint]) := by
  have c1 : containsSub "ProductQuantization" "  Query top 100/2 recall 0.90 in 2.0s"
      = false := by decide
  have c2 : containsSub "BinaryQuantization" "  Query top 100/2 recall 0.90 in 2.0s"
      = false := by decide
  have c3 : containsSub "Uncompressed" "  Query top 100/2 recall 0.90 in 2.0s"
      = false := by decide
  have c4 : containsSub "Build M=" "  Query top 100/2 recall 0.90 in 2.0s"
      = false := by decide
  have c5 : containsSub "  Query " "  Query top 100/2 recall 0.90 in 2.0s"
      = true := by decide
  have c6 : containsSub "(memory)" "  Query top 100/2 recall 0.90 in 2.0s"
      = false := by decide
  simp only [parseDataLine, c1, c2, c3, c4, c5, c6, thr_qf, if_true, if_false,
    ite_true, ite_false, Bool.false_eq_true]
  norm_num [thrPoint]

/-- Evaluation step: the whole block parses to the single point. -/
theorem thr_parse :
    parse_data thrDesc thrData = some ⟨"mydata", 100, 8, [thrPoint]⟩ := by
  obtain ⟨d1, d2, d3, d4⟩ := thr_desc_fields
  simp only [parse_data, d1, d2, d3, d4, thrData, parseDataLoop, thr_line1, thr_line2,
    thr_line3, List.nil_append, List.append_nil, Option.map_some']

/-- C6: every extracted measurement point's throughput equals
query_vector_count * 10 / query_time_seconds (the query time parsed from its own
line); in particular, with 1000 query vectors and a 2.0-second query time the derived
throughput is 5000. -/
theorem throughput_derivation :
    (∀ (description : String) (data : List String) (res : DatasetSummary),
      parse_data description data = some res →
      ∀ p ∈ res.data, ∃ qvc,
        searchNatLit " query".toList description.toList = some qvc ∧
        ∃ line ∈ data, ∃ r t oq, queryFields line.toList = some (r, t, oq) ∧
          p.throughput = (qvc : ℚ) * 10 / t) ∧
    (parse_data thrDesc thrData).map (fun res => res.data.map Point.throughput) =
      some [5000] := by
  constructor
  · intro description data res h p hp
    unfold parse_data at h
    split at h
    · rename_i bvc qvc dims name hb hqv hd hn
      cases hout : parseDataLoop qvc none none [] data with
      | none => rw [hout] at h; cases h
      | some out =>
        rw [hout, Option.map_some'] at h
        rw [Option.some.injEq] at h
        subst h
        rcases parseDataLoop_emits hout p hp with hmem | ⟨line, hline, hrest⟩
        · cases hmem
        · exact ⟨qvc, hqv, line, hline, hrest⟩
    · cases h
  · rw [thr_parse]
    simp [thrPoint]

/-- Witness for C6: the concrete block's point has throughput 1000·10/2.0. -/
theorem throughput_derivation_witness :
    ∃ qvc, searchNatLit " query".toList thrDesc.toList = some qvc ∧
      ∃ line ∈ thrData, ∃ r t oq, queryFields line.toList = some (r, t, oq) ∧
        thrPoint.throughput = (qvc : ℚ) * 10 / t :=
  throughput_derivation.1 thrDesc thrData ⟨"mydata", 100, 8, [thrPoint]⟩
    thr_parse thrPoint (by simp)

/-- A query line with no quantization/build keyword, no memory tag, processed with no
quantization context: Python raises (failed search, ZeroDivisionError, or `assert`). -/
theorem parseDataLine_queryNoPq {qvc : Nat} {mef : Option (Nat × Nat)} {l : String}
    (h1 : containsSub "ProductQuantization" l = false)
    (h2 : containsSub "BinaryQuantization" l = false)
    (h3 : containsSub "Uncompressed" l = false)
    (h4 : containsSub "Build M=" l = false)
    (h5 : containsSub "  Query " l = true)
    (h6 : containsSub "(memory)" l = false) :
    parseDataLine qvc none mef l = none := by
  simp only [parseDataLine, h1, h2, h3, h4, h5, h6, if_true, if_false, ite_true,
    ite_false, Bool.false_eq_true]
  cases hqf : queryFields l.toList with
  | none => rfl
  | some v =>
    obtain ⟨r, t, oq⟩ := v
    by_cases ht : t = 0 <;> simp [ht]

/-- A line without any of the four context keywords leaves a context-free state
context-free (or fails). -/
theorem parseDataLine_noContext (qvc : Nat) {l : String}
    (h1 : containsSub "ProductQuantization" l = false)
    (h2 : containsSub "BinaryQuantization" l = false)
    (h3 : containsSub "Uncompressed" l = false)
    (h4 : containsSub "Build M=" l = false) :
    parseDataLine qvc none none l = none ∨
      parseDataLine qvc none none l = some (none, none, []) := by
  by_cases c5 : containsSub "  Query " l = true
  · by_cases c6 : containsSub "(memory)" l = true
    · right
      simp [parseDataLine, h1, h2, h3, h4, c5, c6]
    · have c6f : containsSub "(memory)" l = false := by
        cases hx : containsSub "(memory)" l
        · rfl
        · exact absurd hx c6
      exact Or.inl (parseDataLine_queryNoPq h1 h2 h3 h4 c5 c6f)
  · right
    simp [parseDataLine, h1, h2, h3, h4, c5]

/-- The loop fails as soon as it reaches a non-memory query line that no context line
preceded. -/
theorem parseDataLoop_failQuery {qvc : Nat} {qline : String} {post : List String}
    (hq1 : containsSub "ProductQuantization" qline = false)
    (hq2 : containsSub "BinaryQuantization" qline = false)
    (hq3 : containsSub "Uncompressed" qline = false)
    (hq4 : containsSub "Build M=" qline = false)
    (hq5 : containsSub "  Query " qline = true)
    (hq6 : containsSub "(memory)" qline = false) :
    ∀ (pre : List String) (acc : List Point),
      (∀ l ∈ pre, containsSub "ProductQuantization" l = false ∧
        containsSub "BinaryQuantization" l = false ∧
        containsSub "Uncompressed" l = false ∧
        containsSub "Build M=" l = false) →
      parseDataLoop qvc none none acc (pre ++ qline :: post) = none := by
  intro pre
  induction pre with
  | nil =>
    intro acc _
    simp only [List.nil_append, parseDataLoop,
      parseDataLine_queryNoPq hq1 hq2 hq3 hq4 hq5 hq6]
  | cons l pre ih =>
    intro acc hl
    obtain ⟨h1, h2, h3, h4⟩ := hl l (List.mem_cons_self l pre)
    have hrest : ∀ l2 ∈ pre, containsSub "ProductQuantization" l2 = false ∧
        containsSub "BinaryQuantization" l2 = false ∧
        containsSub "Uncompressed" l2 = false ∧
        containsSub "Build M=" l2 = false :=
      fun l2 hl2 => hl l2 (List.mem_cons_of_mem l hl2)
    rcases parseDataLine_noContext qvc h1 h2 h3 h4 with hnone | hsome
    · simp only [List.cons_append, parseDataLoop, hnone]
    · simp only [List.cons_append, parseDataLoop, hsome, List.append_nil]
      exact ih acc hrest

set_option maxRecDepth 4000 in
/-- C4 counterexample: a query-result line tagged "(memory)" is matched before any
quantization or M/ef context line, yet `parse_data` succeeds (silently skipping the
line) instead of failing. -/
theorem query_before_context_counterexample :
    containsSub "  Query " memLine = true ∧
    containsSub "(memory)" memLine = true ∧
    containsSub "ProductQuantization" memLine = false ∧
    containsSub "BinaryQuantization" memLine = false ∧
    containsSub "Uncompressed" memLine = false ∧
    containsSub "Build M=" memLine = false ∧
    parse_data memDesc [memLine] = some ⟨"memds", 10, 4, []⟩ := by
  refine ⟨by decide, by decide, by decide, by decide, by decide, by decide, by decide⟩

/-- C4 amended: if the first matched NON-memory query line precedes every quantization
and M/ef context line (memory-tagged query lines and unmatched lines may come before
it), `parse_data` fails — it never silently emits or skips that measurement. -/
theorem query_before_context_fails (description : String) (pre post : List String)
    (qline : String)
    (hpre : ∀ l ∈ pre, containsSub "ProductQuantization" l = false ∧
      containsSub "BinaryQuantization" l = false ∧
      containsSub "Uncompressed" l = false ∧
      containsSub "Build M=" l = false)
    (hq1 : containsSub "ProductQuantization" qline = false)
    (hq2 : containsSub "BinaryQuantization" qline = false)
    (hq3 : containsSub "Uncompressed" qline = false)
    (hq4 : containsSub "Build M=" qline = false)
    (hq5 : containsSub "  Query " qline = true)
    (hq6 : containsSub "(memory)" qline = false) :
    parse_data description (pre ++ qline :: post) = none := by
  unfold parse_data
  cases searchNatLit " base".toList description.toList <;>
    cases searchNatLit " query".toList description.toList <;>
      cases searchLitNat "dimensions ".toList description.toList <;>
        cases searchSNameColon description.toList <;>
          first
          | rfl
          | simp [parseDataLoop_failQuery hq1 hq2 hq3 hq4 hq5 hq6 pre [] hpre]

/-- A non-memory query line (which happens to have no parsable recall). -/
def c4Line : String := "  Query top 100/2"

/-- Witness for the amended C4: the lone query line makes extraction fail. -/
theorem query_before_context_fails_witness :
    parse_data memDesc [c4Line] = none :=
  query_before_context_fails memDesc [] [] c4Line (by simp) (by decide) (by decide)
    (by decide) (by decide) (by decide) (by decide)

/-! ### C2: the dataset header and the current build -/

/-- Input lines for the C2 counterexample. -/
def c2L1 : String := "ds1: 100 base and 50 query vectors loaded, dimensions 8"

def c2L2 : String := "Build N=100 M=16 ef=64 in 1.0s with 20.0 short edges"

def c2L3 : String := "ds2: 100 base and 50 query vectors loaded, dimensions 8"

def c2L4 : String := "Looking for top 5 of 100 ordinals required visiting 30 nodes"

set_option maxRecDepth 4000 in
/-- C2 counterexample: the trial line `c2L4` appears after the dataset header `c2L3`
with no intervening build header, yet it IS appended to a build (the still-current
build of the earlier dataset "ds1"). -/
theorem dataset_header_reset_counterexample :
    datasetHeaderName c2L3.toList = some "ds2" ∧
    runHeaderN c2L3.toList = none ∧
    datasetHeaderName c2L4.toList = none ∧
    runHeaderN c2L4.toList = none ∧
    trialLineKBF c2L4.toList = some (5, 100, 30) ∧
    parse_file [c2L1, c2L2, c2L3, c2L4] =
      [("ds1", [⟨100, [⟨5, 100, 30⟩]⟩]), ("ds2", [])] := by
  refine ⟨by decide, by decide, by decide, by decide, by decide, by decide⟩

/-- `setEntry _ _ []` keeps an everywhere-empty map everywhere-empty. -/
theorem setEntry_empty : ∀ (m : List (String × List Run)) (k : String),
    (∀ e ∈ m, e.2 = ([] : List Run)) →
    ∀ e ∈ setEntry m k [], e.2 = ([] : List Run) := by
  intro m
  induction m with
  | nil =>
    intro k _ e he
    simp only [setEntry, List.mem_singleton] at he
    subst he
    rfl
  | cons p m ih =>
    intro k h e he
    by_cases hpk : p.1 = k
    · rw [setEntry, if_pos hpk] at he
      rcases List.mem_cons.mp he with rfl | hm
      · rfl
      · exact h e (List.mem_cons_of_mem p hm)
    · rw [setEntry, if_neg hpk] at he
      rcases List.mem_cons.mp he with rfl | hm
      · exact h e (List.mem_cons_self e m)
      · exact ih k (fun e2 he2 => h e2 (List.mem_cons_of_mem p he2)) e hm

/-- With no build-header line in the input, the fold keeps every dataset's build list
empty and the current run absent. -/
theorem foldl_parseStep_no_run :
    ∀ (lines : List String) (s : PState),
      (∀ l ∈ lines, runHeaderN l.toList = none) →
      (∀ e ∈ s.datasets, e.2 = ([] : List Run)) → s.cur = none →
      (∀ e ∈ (lines.foldl parseStep s).datasets, e.2 = ([] : List Run)) ∧
        (lines.foldl parseStep s).cur = none := by
  intro lines
  induction lines with
  | nil =>
    intro s _ h1 h2
    exact ⟨h1, h2⟩
  | cons l lines ih =>
    intro s hr h1 h2
    rw [List.foldl_cons]
    apply ih
    · exact fun l2 hl2 => hr l2 (List.mem_cons_of_mem l hl2)
    · unfold parseStep
      cases hd : datasetHeaderName l.toList with
      | some name => exact setEntry_empty _ _ h1
      | none =>
        rw [hr l (List.mem_cons_self l lines), h2]
        cases s.currentDataset <;> cases trialLineKBF l.toList <;> exact h1
    · unfold parseStep
      cases hd : datasetHeaderName l.toList with
      | some name =>
        rw [h2]
        rfl
      | none =>
        rw [hr l (List.mem_cons_self l lines), h2]
        cases s.currentDataset <;> cases trialLineKBF l.toList <;> exact h2

/-- C2 amended: a dataset-header line does not reset the current build to none — the
counterexample shows a trial after a fresh header landing in the previous dataset's
still-current build; what does hold is that a trial is appended to a build only if
some build-header line occurred earlier in the input: with no build-header line at
all, every dataset of the output has an empty build list. -/
theorem no_build_header_no_builds :
    ∀ lines : List String, (∀ l ∈ lines, runHeaderN l.toList = none) →
      ∀ e ∈ parse_file lines, e.2 = ([] : List Run) := by
  intro lines hr e he
  unfold parse_file at he
  obtain ⟨h1, h2⟩ := foldl_parseStep_no_run lines ⟨[], none, none⟩ hr
    (by intro e2 he2; cases he2) rfl
  rw [flushCur, h2] at he
  exact h1 e he

set_option maxRecDepth 4000 in
/-- Witness for the amended C2: one header line alone yields an empty build list. -/
theorem no_build_header_no_builds_witness :
    (("ds2", ([] : List Run))).2 = ([] : List Run) :=
  no_build_header_no_builds [c2L3] (by decide) ("ds2", []) (by decide)

/-! ### C10: a later header for the same name discards the earlier builds -/

/-- The pending current run as far as dataset `n` can observe it: its value when it is
still reachable under `n`, nothing otherwise. -/
def curProj (n : String) : Option (Option String × Run) → Option Run
  | some (some o, r) => if o = n then some r else none
  | _ => none

/-- Two parser states agreeing on everything dataset `n` can still observe. -/
abbrev SimRel (n : String) (s1 s2 : PState) : Prop :=
  s1.currentDataset = s2.currentDataset ∧
  lookupDs s1.datasets n = lookupDs s2.datasets n ∧
  curProj n s1.cur = curProj n s2.cur

/-- Lookup after a dictionary write. -/
theorem lookupDs_setEntry (m : List (String × List Run)) (k n : String) (v : List Run) :
    lookupDs (setEntry m k v) n = if k = n then some v else lookupDs m n := by
  induction m with
  | nil => by_cases hkn : k = n <;> simp [setEntry, lookupDs, hkn]
  | cons p m ih =>
    by_cases hpk : p.1 = k
    · by_cases hkn : k = n
      · simp [setEntry, lookupDs, hpk, hkn]
      · have hpn : ¬ p.1 = n := by rw [hpk]; exact hkn
        simp [setEntry, lookupDs, hpk, hkn, hpn]
    · by_cases hpn : p.1 = n
      · have hkn : ¬ k = n := fun hEq => hpk (hpn.trans hEq.symm)
        have hnk : ¬ n = k := fun hEq => hkn hEq.symm
        simp [setEntry, lookupDs, hpk, hpn, hkn, hnk]
      · simp [setEntry, lookupDs, hpk, hpn, ih]

/-- Lookup after appending a run to one entry. -/
theorem lookupDs_appendEntry (m : List (String × List Run)) (k n : String) (r : Run) :
    lookupDs (appendEntry m k r) n =
      if k = n then (lookupDs m n).map (fun l => l ++ [r]) else lookupDs m n := by
  induction m with
  | nil => by_cases hkn : k = n <;> simp [appendEntry, lookupDs, hkn]
  | cons p m ih =>
    by_cases hpk : p.1 = k
    · by_cases hkn : k = n
      · have hpn : p.1 = n := hpk.trans hkn
        simp [appendEntry, lookupDs, hpk, hkn, hpn]
      · have hpn : ¬ p.1 = n := by rw [hpk]; exact hkn
        simp [appendEntry, lookupDs, hpk, hkn, hpn]
    · by_cases hpn : p.1 = n
      · have hkn : ¬ k = n := fun hEq => hpk (hpn.trans hEq.symm)
        have hnk : ¬ n = k := fun hEq => hkn hEq.symm
        simp [appendEntry, lookupDs, hpk, hpn, hkn, hnk]
      · simp [appendEntry, lookupDs, hpk, hpn, ih]

/-- Overwriting a different name's entry is invisible to `n`'s projection of the
current run. -/
theorem curProj_detachIf_ne {m n : String} (h : m ≠ n)
    (c : Option (Option String × Run)) : curProj n (detachIf m c) = curProj n c := by
  rcases c with _ | ⟨o, r⟩
  · rfl
  · rcases o with _ | o
    · rfl
    · by_cases ho : o = m
      · subst ho
        simp [detachIf, curProj, h]
      · simp [detachIf, curProj, ho]

/-- Overwriting `n`'s own entry detaches the current run from `n`. -/
theorem curProj_detachIf_self (n : String) (c : Option (Option String × Run)) :
    curProj n (detachIf n c) = none := by
  rcases c with _ | ⟨o, r⟩
  · rfl
  · rcases o with _ | o
    · rfl
    · by_cases ho : o = n
      · subst ho
        simp [detachIf, curProj]
      · simp [detachIf, curProj, ho]

/-- Appending a trial to the current run commutes with `n`'s projection. -/
theorem curProj_append {n : String} (o : Option String) (r : Run) (t : Trial) :
    curProj n (some (o, { r with data := r.data ++ [t] })) =
      (curProj n (some (o, r))).map (fun r2 => { r2 with data := r2.data ++ [t] }) := by
  rcases o with _ | o
  · rfl
  · by_cases ho : o = n <;> simp [curProj, ho]

/-- What flushing contributes to `n`'s entry is determined by `n`'s view alone. -/
theorem lookupDs_flushCur {n : String} {s1 s2 : PState}
    (hd : lookupDs s1.datasets n = lookupDs s2.datasets n)
    (hc : curProj n s1.cur = curProj n s2.cur) :
    lookupDs (flushCur s1) n = lookupDs (flushCur s2) n := by
  have key : ∀ s : PState, lookupDs (flushCur s) n =
      match curProj n s.cur with
      | some r => (lookupDs s.datasets n).map (fun l => l ++ [r])
      | none => lookupDs s.datasets n := by
    intro s
    rcases hcur : s.cur with _ | ⟨o, r⟩
    · simp [flushCur, curProj, hcur]
    · rcases o with _ | o
      · simp [flushCur, curProj, hcur]
      · by_cases ho : o = n
        · subst ho
          simp [flushCur, curProj, hcur, lookupDs_appendEntry]
        · simp [flushCur, curProj, hcur, lookupDs_appendEntry, ho]
  rw [key s1, key s2, hd, hc]

/-- The trial branch of `parseStep` preserves the simulation. -/
theorem trialStep_sim {n : String} {s1 s2 : PState} {l : String}
    (hcd : s1.currentDataset = s2.currentDataset)
    (hds : lookupDs s1.datasets n = lookupDs s2.datasets n)
    (hcur : curProj n s1.cur = curProj n s2.cur) :
    SimRel n
      (match trialLineKBF l.toList, s1.cur with
        | some (k, b, f), some (o, r) =>
          { s1 with cur := some (o, { r with data := r.data ++ [⟨k, b, f⟩] }) }
        | _, _ => s1)
      (match trialLineKBF l.toList, s2.cur with
        | some (k, b, f), some (o, r) =>
          { s2 with cur := some (o, { r with data := r.data ++ [⟨k, b, f⟩] }) }
        | _, _ => s2) := by
  cases ht : trialLineKBF l.toList with
  | none => exact ⟨hcd, hds, hcur⟩
  | some v =>
    obtain ⟨k, b, f⟩ := v
    rcases hc1 : s1.cur with _ | ⟨o1, r1⟩ <;> rcases hc2 : s2.cur with _ | ⟨o2, r2⟩
    · exact ⟨hcd, hds, hcur⟩
    · refine ⟨hcd, hds, ?_⟩
      rw [hc1, hc2] at hcur
      rw [hc1, curProj_append, ← hcur]
      rfl
    · refine ⟨hcd, hds, ?_⟩
      rw [hc1, hc2] at hcur
      rw [hc2, curProj_append, hcur]
      rfl
    · refine ⟨hcd, hds, ?_⟩
      rw [hc1, hc2] at hcur
      rw [curProj_append, curProj_append, hcur]

/-- One step of `parse_file` preserves the simulation, for any line that is not a
dataset header for `n`. -/
theorem parseStep_sim {n : String} {s1 s2 : PState} {l : String}
    (hl : datasetHeaderName l.toList ≠ some n)
    (hs : SimRel n s1 s2) : SimRel n (parseStep s1 l) (parseStep s2 l) := by
  obtain ⟨ds1, cd1, cu1⟩ := s1
  obtain ⟨ds2, cd2, cu2⟩ := s2
  obtain ⟨hcd, hds, hcur⟩ := hs
  simp only at hcd hds hcur
  subst hcd
  unfold parseStep
  cases hd : datasetHeaderName l.toList with
  | some m =>
    have hmn : m ≠ n := fun hEq => hl (by rw [hd, hEq])
    refine ⟨rfl, ?_, ?_⟩
    · rw [lookupDs_setEntry, lookupDs_setEntry, if_neg hmn, if_neg hmn]
      exact hds
    · rw [curProj_detachIf_ne hmn, curProj_detachIf_ne hmn]
      exact hcur
  | none =>
    cases hr : runHeaderN l.toList with
    | some nv =>
      cases cd1 with
      | some d => exact ⟨rfl, lookupDs_flushCur hds hcur, rfl⟩
      | none => exact trialStep_sim rfl hds hcur
    | none => exact trialStep_sim rfl hds hcur

/-- The simulation is preserved across any run of header-free-for-`n` lines. -/
theorem foldl_parseStep_sim {n : String} :
    ∀ (ls : List String) {s1 s2 : PState},
      (∀ l ∈ ls, datasetHeaderName l.toList ≠ some n) →
      SimRel n s1 s2 → SimRel n (ls.foldl parseStep s1) (ls.foldl parseStep s2) := by
  intro ls
  induction ls with
  | nil =>
    intro s1 s2 _ hs
    exact hs
  | cons l ls ih =>
    intro s1 s2 hl hs
    rw [List.foldl_cons, List.foldl_cons]
    exact ih (fun l2 h2 => hl l2 (List.mem_cons_of_mem l h2))
      (parseStep_sim (hl l (List.mem_cons_self l ls)) hs)

/-- Processing a header for `n` from any state simulates processing it from the
initial state. -/
theorem parseStep_header_sim {n : String} {hdr : String} (s : PState)
    (hh : datasetHeaderName hdr.toList = some n) :
    SimRel n (parseStep s hdr) (parseStep ⟨[], none, none⟩ hdr) := by
  unfold parseStep
  rw [hh]
  refine ⟨rfl, ?_, ?_⟩
  · rw [lookupDs_setEntry, lookupDs_setEntry, if_pos rfl, if_pos rfl]
  · rw [curProj_detachIf_self, curProj_detachIf_self]

/-- Input lines for the C10 concrete scenario. -/
def c10Hdr : String := "dup: 1 base and 1 query vectors loaded, dimensions 1"

def c10Build1 : String := "Build N=100 M=16 ef=64 in 1.0s with 20.0 short edges"

def c10Build2 : String := "Build N=200 M=16 ef=64 in 1.0s with 20.0 short edges"

set_option maxRecDepth 4000 in
/-- C10: when a dataset name reappears in a later header, the output associates the
name only with the builds parsed after the last such header: the entry equals what a
parse starting at that last header produces, and in the concrete duplicate-name
scenario the build appended under the earlier occurrence is discarded. -/
theorem duplicate_dataset_header_discards :
    (∀ (pre post : List String) (hdr name : String),
      datasetHeaderName hdr.toList = some name →
      (∀ l ∈ post, datasetHeaderName l.toList ≠ some name) →
      lookupDs (parse_file (pre ++ hdr :: post)) name =
        lookupDs (parse_file (hdr :: post)) name) ∧
    parse_file [c10Hdr, c10Build1, c10Hdr, c10Build2] = [("dup", [⟨200, []⟩])] := by
  constructor
  · intro pre post hdr name hh hpost
    unfold parse_file
    rw [List.foldl_append, List.foldl_cons, List.foldl_cons]
    have hs := foldl_parseStep_sim post hpost
      (parseStep_header_sim (pre.foldl parseStep ⟨[], none, none⟩) hh)
    exact lookupDs_flushCur hs.2.1 hs.2.2
  · decide

set_option maxRecDepth 4000 in
/-- Witness for C10 on the concrete duplicate-name scenario. -/
theorem duplicate_dataset_header_discards_witness :
    lookupDs (parse_file [c10Hdr, c10Build1, c10Hdr, c10Build2]) "dup" =
      lookupDs (parse_file [c10Hdr, c10Build2]) "dup" :=
  duplicate_dataset_header_discards.1 [c10Hdr, c10Build1] [c10Build2] c10Hdr "dup"
    (by decide) (by decide)

end JVector
